import Mathlib

/-!
Socket transport layer (`app/src/util/net.c`).

A shallow embedding of the functions of `net.c` and the properties of the
transport-layer specification that concern them.

Conventions of the embedding.

* `size_t` values are natural numbers below `SIZE_MODULUS`; arithmetic on them is
  reduced modulo `SIZE_MODULUS`.  `ssize_t` and `int` values are integers.
* The operating system is not part of the program.  Every system call
  (`send`, `socket`, `connect`, `bind`, `listen`, `setsockopt`, `close`,
  `select`, `WSAStartup`) is a parameter that gives the value the call returns;
  the functions of `net.c` are translated statement by statement on top of
  these parameters and record the calls they make.
* `net_send_all` contains an unbounded `while` loop.  It is run with a bound on
  the number of iterations; a run that reaches the bound is reported as
  unfinished (`ret = none`) together with the calls made so far.
-/

namespace Net

/-! ## `net_send_all` -/

/-- Number of values of the unsigned type `size_t` (64-bit targets). -/
def SIZE_MODULUS : Nat := 2 ^ 64

/-- The statement `len -= w` with `len : size_t` and `w : ssize_t`: the signed
operand is converted to `size_t` and the subtraction is done modulo
`SIZE_MODULUS`. -/
def size_sub (len : Nat) (w : Int) : Nat :=
  (((len : Int) - w) % (SIZE_MODULUS : Int)).toNat

/-- A record of one call `w = send(socket, buf, len, 0)` made by `net_send_all`.
`buf` is the pointer argument, as an offset from the start of the buffer the
caller passed to `net_send_all`; `len` is the length argument; `w` is the value
the call returned. -/
structure SendCall where
  buf : Int
  len : Nat
  w : Int
deriving DecidableEq, Repr

/-- What a run of `net_send_all` did: the value returned (`none` when the loop
is still running at the iteration bound) and the `send` calls, in call
order. -/
structure SendRun where
  ret : Option Int
  calls : List SendCall
deriving DecidableEq, Repr

/-- How one iteration of the loop of `net_send_all` ends: the function returns
`ret`, or the loop goes on with new values of `buf` and `len`. -/
inductive Iteration where
  | returns (ret : Int)
  | continues (buf : Int) (len : Nat)
deriving DecidableEq, Repr

/-- The body of the `while` loop of `net_send_all` after `w = send(...)`:
```
if (w == -1) { return -1; }
len -= w;
buf = (char *) buf + w;
```
-/
def net_send_all_body (buf : Int) (len : Nat) (w : Int) : Iteration :=
  if w = -1 then
    Iteration.returns (-1)
  else
    Iteration.continues (buf + w) (size_sub len w)

/-- The loop `while (len > 0) { w = send(socket, buf, len, 0); ... } return w;`
of `net_send_all`, run for at most `fuel` iterations.  `send i buf len` is the
value returned by the `send` call number `i` (counted from 0) of the run when it
is handed `buf` and `len`; `w` is the current value of the local `w`. -/
def net_send_all_loop (send : Nat → Int → Nat → Int) :
    Nat → Nat → Int → Nat → Int → SendRun
  | 0, _, _, len, w =>
    if 0 < len then ⟨none, []⟩ else ⟨some w, []⟩
  | fuel + 1, i, buf, len, w =>
    if 0 < len then
      let w1 := send i buf len
      match net_send_all_body buf len w1 with
      | Iteration.returns r => ⟨some r, [⟨buf, len, w1⟩]⟩
      | Iteration.continues buf1 len1 =>
        let rest := net_send_all_loop send fuel (i + 1) buf1 len1 w1
        ⟨rest.ret, ⟨buf, len, w1⟩ :: rest.calls⟩
    else
      ⟨some w, []⟩

/-- The function `net_send_all(socket, buf, len)`: `ssize_t w = 0;` followed by
the loop.  The buffer pointer starts at offset 0 of the caller's buffer. -/
def net_send_all (send : Nat → Int → Nat → Int) (fuel : Nat) (len : Nat) : SendRun :=
  net_send_all_loop send fuel 0 0 len 0

/-- The bytes of the caller's buffer `data` that a recorded `send` call
accepted: the `w` bytes starting at its pointer argument. -/
def chunk {α : Type} (data : List α) (c : SendCall) : List α :=
  (data.drop c.buf.toNat).take c.w.toNat

/-- The calls of a run honour the transfer contract of `send`: each accepted at
least one byte and at most the number of bytes it was handed. -/
def AcceptsSome (calls : List SendCall) : Prop :=
  ∀ c ∈ calls, 1 ≤ c.w ∧ c.w ≤ (c.len : Int)

instance (calls : List SendCall) : Decidable (AcceptsSome calls) := by
  unfold AcceptsSome; infer_instance

/-- The calls of a run honour the full contract of `send`: each returned the
error value `-1` or accepted between 1 and the number of bytes it was handed. -/
def ErrorOrAcceptsSome (calls : List SendCall) : Prop :=
  ∀ c ∈ calls, c.w = -1 ∨ (1 ≤ c.w ∧ c.w ≤ (c.len : Int))

instance (calls : List SendCall) : Decidable (ErrorOrAcceptsSome calls) := by
  unfold ErrorOrAcceptsSome; infer_instance

/-- A transport that accepts at most `k` bytes (`k ≥ 1`) per call. -/
def sendAtMost (k : Nat) : Nat → Int → Nat → Int :=
  fun _ _ len => (min k len : Nat)

/-- A transport that accepts at most `k` bytes per call and fails on call
number `n`. -/
def sendFailingAt (k n : Nat) : Nat → Int → Nat → Int :=
  fun i _ len => if i = n then -1 else (min k len : Nat)

/-! ## `net_init` -/

/-- The function `net_init`.  `windows` tells whether `__WINDOWS__` is defined;
`startup` is the value returned by `WSAStartup(MAKEWORD(2, 2), &wsa)`
(0 on success, otherwise a non-zero error code).
```
int res = WSAStartup(MAKEWORD(2, 2), &wsa) < 0;
if (res < 0) { LOGC(...); return false; }
return true;
```
The comparison `... < 0` yields the `int` 1 or 0, which is what `res` holds. -/
def net_init (windows : Bool) (startup : Int) : Bool :=
  if windows then
    let res : Int := if startup < 0 then 1 else 0
    if res < 0 then false else true
  else
    true

/-! ## `net_select_interruptible` -/

/-- A descriptor set (`fd_set`): which descriptors are members. -/
abbrev fd_set := Int → Bool

/-- The empty set left by `FD_ZERO(&rfds)`. -/
def FD_ZERO : fd_set := fun _ => false

/-- The set after `FD_SET(fd, &rfds)`. -/
def FD_SET (fd : Int) (rfds : fd_set) : fd_set :=
  fun x => if x = fd then true else rfds x

/-- The test `FD_ISSET(fd, &rfds)`. -/
def FD_ISSET (fd : Int) (rfds : fd_set) : Bool := rfds fd

/-- Modelled from the spec: the macro `MAX` of `common.h`, a header that is not
among the sources.  The wait covers both descriptors, so the bound handed to
`select` is one more than the larger of the two. -/
def MAX (a b : Int) : Int := if a > b then a else b

/-- How a call of `net_select_interruptible` ends: it returns a boolean, or one
of its two `assert`s fails (`assert(r > 0)` is number 1,
`assert(FD_ISSET(fd, &rfds))` is number 2). -/
inductive SelectEnd where
  | returned (b : Bool)
  | assert_failed (n : Nat)
deriving DecidableEq, Repr

/-- The call `select(nfds, &rfds, NULL, NULL, NULL)` as `net_select_interruptible`
issues it, after
```
FD_ZERO(&rfds); FD_SET(fd, &rfds); FD_SET(fd_intr, &rfds);
int nfds = MAX(fd, fd_intr) + 1;
```
The result is the value returned and the descriptor set left in `rfds`. -/
def select_outcome (select : Int → fd_set → Int × fd_set) (fd fd_intr : Int) :
    Int × fd_set :=
  let rfds := FD_SET fd_intr (FD_SET fd FD_ZERO)
  let nfds := MAX fd fd_intr + 1
  select nfds rfds

/-- The function `net_select_interruptible(fd, fd_intr)`.  `select nfds rfds`
is the outcome of `select(nfds, &rfds, NULL, NULL, NULL)`: the value returned
and the descriptor set the call leaves in `rfds`. -/
def net_select_interruptible (select : Int → fd_set → Int × fd_set)
    (fd fd_intr : Int) : SelectEnd :=
  let out := select_outcome select fd fd_intr
  let r := out.1
  let rfds := out.2
  if r = -1 then
    SelectEnd.returned false
  else if ¬ (r > 0) then
    SelectEnd.assert_failed 1
  else if FD_ISSET fd_intr rfds = true then
    SelectEnd.returned false
  else if ¬ (FD_ISSET fd rfds = true) then
    SelectEnd.assert_failed 2
  else
    SelectEnd.returned true

/-- The descriptor set that holds exactly the members of `l`. -/
def fdsOf (l : List Int) : fd_set := fun x => decide (x ∈ l)

/-! ## `net_connect` and `net_listen` -/

/-- The value `SOCKET_ERROR` (`-1`, defined in `net.c` for the POSIX backend
and by the platform headers on Windows). -/
def SOCKET_ERROR : Int := -1

/-- The platform as seen by `net_connect` and `net_listen`: the constant
`INVALID_SOCKET` (declared in `net.h`, not among the sources), the byte-order
conversions, and the value each system call returns for its arguments. -/
structure Sys where
  INVALID_SOCKET : Int
  htonl : Nat → Nat
  htons : Nat → Nat
  socket : Int
  setsockopt : Int → Int
  connect : Int → Nat → Nat → Int
  bind : Int → Nat → Nat → Int
  listen : Int → Int → Int

/-- The observable actions of `net_connect` and `net_listen`, in program
order: system calls with their arguments, and lines written by `perror`. -/
inductive Event where
  | socket
  | setsockopt (sock : Int)
  | connect (sock : Int) (s_addr : Nat) (sin_port : Nat)
  | bind (sock : Int) (s_addr : Nat) (sin_port : Nat)
  | listen (sock : Int) (backlog : Int)
  | close (sock : Int)
  | perror (msg : String)
deriving DecidableEq, Repr

/-- The handle returned by `net_connect` or `net_listen` and what the call
did. -/
structure SockRun where
  ret : Int
  events : List Event
deriving DecidableEq, Repr

/-- The function `net_close(socket)`: one `close` (or `closesocket`) call. -/
def net_close (sock : Int) : List Event := [Event.close sock]

/-- The function `net_connect(addr, port)`. -/
def net_connect (sys : Sys) (addr port : Nat) : SockRun :=
  let sock := sys.socket
  if sock = sys.INVALID_SOCKET then
    ⟨sys.INVALID_SOCKET, [Event.socket, Event.perror "socket"]⟩
  else
    let s_addr := sys.htonl addr
    let sin_port := sys.htons port
    if sys.connect sock s_addr sin_port = SOCKET_ERROR then
      ⟨sys.INVALID_SOCKET,
        [Event.socket, Event.connect sock s_addr sin_port, Event.perror "connect"]
          ++ net_close sock⟩
    else
      ⟨sock, [Event.socket, Event.connect sock s_addr sin_port]⟩

/-- The diagnostics of the `setsockopt` step of `net_listen`: a line is written
when the call returns `-1`. -/
def reuse_diagnostic (r : Int) : List Event :=
  if r = -1 then [Event.perror "setsockopt(SO_REUSEADDR)"] else []

/-- The function `net_listen(addr, port, backlog)`. -/
def net_listen (sys : Sys) (addr port : Nat) (backlog : Int) : SockRun :=
  let sock := sys.socket
  if sock = sys.INVALID_SOCKET then
    ⟨sys.INVALID_SOCKET, [Event.socket, Event.perror "socket"]⟩
  else
    let pre := [Event.socket, Event.setsockopt sock] ++ reuse_diagnostic (sys.setsockopt sock)
    let s_addr := sys.htonl addr
    let sin_port := sys.htons port
    if sys.bind sock s_addr sin_port = SOCKET_ERROR then
      ⟨sys.INVALID_SOCKET,
        pre ++ [Event.bind sock s_addr sin_port, Event.perror "bind"] ++ net_close sock⟩
    else if sys.listen sock backlog = SOCKET_ERROR then
      ⟨sys.INVALID_SOCKET,
        pre ++ [Event.bind sock s_addr sin_port, Event.listen sock backlog,
          Event.perror "listen"] ++ net_close sock⟩
    else
      ⟨sock, pre ++ [Event.bind sock s_addr sin_port, Event.listen sock backlog]⟩

/-- The handles closed by a run, in order. -/
def closed (es : List Event) : List Int :=
  es.filterMap fun e => match e with
    | Event.close s => some s
    | _ => none

/-- Whether a run attempted `connect`, `bind` or `listen`. -/
def attempted (es : List Event) : Bool :=
  es.any fun e => match e with
    | Event.connect _ _ _ => true
    | Event.bind _ _ _ => true
    | Event.listen _ _ => true
    | _ => false

/-- Whether a run called `listen`. -/
def listened (es : List Event) : Bool :=
  es.any fun e => match e with
    | Event.listen _ _ => true
    | _ => false

/-- The `socket`, `bind`, `listen` and `close` calls of a run, in order. -/
def socket_calls (es : List Event) : List Event :=
  es.filter fun e => match e with
    | Event.socket => true
    | Event.bind _ _ _ => true
    | Event.listen _ _ => true
    | Event.close _ => true
    | _ => false

/-- The lines a run wrote with `perror`, in order. -/
def diagnostics (es : List Event) : List String :=
  es.filterMap fun e => match e with
    | Event.perror m => some m
    | _ => none

/-- A platform for examples: `socket` returns `sock`, the sentinel is `-1`, the
host is big-endian, and `setsockopt`, `connect`, `bind`, `listen` return the
given values. -/
def sysOf (sock opt con bnd lis : Int) : Sys where
  INVALID_SOCKET := -1
  htonl := id
  htons := id
  socket := sock
  setsockopt := fun _ => opt
  connect := fun _ _ _ => con
  bind := fun _ _ _ => bnd
  listen := fun _ _ => lis

/-- The platform `sys` with the outcome of `setsockopt` replaced by `opt`;
everything else is unchanged. -/
def with_setsockopt (sys : Sys) (opt : Int → Int) : Sys :=
  ⟨sys.INVALID_SOCKET, sys.htonl, sys.htons, sys.socket, opt, sys.connect, sys.bind,
    sys.listen⟩

/-- The events of a run without the diagnostic line of the `setsockopt`
step. -/
def without_reuse_diagnostic (es : List Event) : List Event :=
  es.filter fun e => decide (e ≠ Event.perror "setsockopt(SO_REUSEADDR)")

/-! ## Equations of the `net_send_all` loop -/

theorem size_sub_of_le (len : Nat) (w : Int) (h0 : 0 ≤ w) (hw : w ≤ (len : Int))
    (hlen : len < SIZE_MODULUS) : size_sub len w = len - w.toNat := by
  unfold size_sub
  have h1 : (0 : Int) ≤ (len : Int) - w := by omega
  have h2 : (len : Int) - w < (SIZE_MODULUS : Int) := by omega
  rw [Int.emod_eq_of_lt h1 h2]
  omega

theorem net_send_all_loop_done (send : Nat → Int → Nat → Int) (fuel i : Nat) (buf w : Int) :
    net_send_all_loop send fuel i buf 0 w = ⟨some w, []⟩ := by
  cases fuel <;> simp [net_send_all_loop]

theorem net_send_all_loop_out_of_fuel (send : Nat → Int → Nat → Int) (i : Nat) (buf : Int)
    (len : Nat) (w : Int) (hlen : 0 < len) :
    net_send_all_loop send 0 i buf len w = ⟨none, []⟩ := by
  simp [net_send_all_loop, hlen]

theorem net_send_all_loop_error (send : Nat → Int → Nat → Int) (fuel i : Nat) (buf : Int)
    (len : Nat) (w : Int) (hlen : 0 < len) (hs : send i buf len = -1) :
    net_send_all_loop send (fuel + 1) i buf len w = ⟨some (-1), [⟨buf, len, -1⟩]⟩ := by
  simp [net_send_all_loop, net_send_all_body, hlen, hs]

theorem net_send_all_loop_next (send : Nat → Int → Nat → Int) (fuel i : Nat) (buf : Int)
    (len : Nat) (w : Int) (hlen : 0 < len) (hs : send i buf len ≠ -1) :
    net_send_all_loop send (fuel + 1) i buf len w =
      ⟨(net_send_all_loop send fuel (i + 1) (buf + send i buf len)
          (size_sub len (send i buf len)) (send i buf len)).ret,
        ⟨buf, len, send i buf len⟩ ::
          (net_send_all_loop send fuel (i + 1) (buf + send i buf len)
            (size_sub len (send i buf len)) (send i buf len)).calls⟩ := by
  simp [net_send_all_loop, net_send_all_body, hlen, hs]

/-- The value returned by the loop is the value of the last `send` call, or the
initial `w` when no call was made. -/
theorem net_send_all_loop_ret_last (send : Nat → Int → Nat → Int) (fuel : Nat) :
    ∀ (i : Nat) (buf : Int) (len : Nat) (w : Int),
      (net_send_all_loop send fuel i buf len w).ret = none ∨
      (net_send_all_loop send fuel i buf len w).ret =
        some (((net_send_all_loop send fuel i buf len w).calls.getLast?.map SendCall.w).getD w) := by
  induction fuel with
  | zero =>
    intro i buf len w
    by_cases hlen : 0 < len
    · simp [net_send_all_loop_out_of_fuel send i buf len w hlen]
    · have : len = 0 := by omega
      subst this
      simp [net_send_all_loop_done]
  | succ fuel ih =>
    intro i buf len w
    by_cases hlen : 0 < len
    · by_cases hs : send i buf len = -1
      · simp [net_send_all_loop_error send fuel i buf len w hlen hs]
      · rw [net_send_all_loop_next send fuel i buf len w hlen hs]
        rcases ih (i + 1) (buf + send i buf len) (size_sub len (send i buf len))
          (send i buf len) with h | h
        · exact Or.inl h
        · right
          rw [h]
          cases hc : (net_send_all_loop send fuel (i + 1) (buf + send i buf len)
            (size_sub len (send i buf len)) (send i buf len)).calls with
          | nil => simp
          | cons d ds =>
            have hx : (d :: ds).getLast? = some ((d :: ds).getLast (by simp)) :=
              List.getLast?_eq_getLast _ _
            simp only [List.getLast?_cons_cons, hx, Option.map_some', Option.getD_some]
    · have : len = 0 := by omega
      subst this
      simp [net_send_all_loop_done]

/-- A `send` that returns -1 ends the loop: the loop returns -1 exactly when one
of its calls returned -1, and only its last call can have done so. -/
theorem net_send_all_loop_error_iff (send : Nat → Int → Nat → Int) (fuel : Nat) :
    ∀ (i : Nat) (buf : Int) (len : Nat) (w : Int), w ≠ -1 →
      ((net_send_all_loop send fuel i buf len w).ret = some (-1) ↔
        ∃ c ∈ (net_send_all_loop send fuel i buf len w).calls, c.w = -1) ∧
      (∀ c ∈ (net_send_all_loop send fuel i buf len w).calls.dropLast, c.w ≠ -1) := by
  induction fuel with
  | zero =>
    intro i buf len w hw
    by_cases hlen : 0 < len
    · simp [net_send_all_loop_out_of_fuel send i buf len w hlen]
    · have : len = 0 := by omega
      subst this
      simp [net_send_all_loop_done, hw]
  | succ fuel ih =>
    intro i buf len w hw
    by_cases hlen : 0 < len
    · by_cases hs : send i buf len = -1
      · simp [net_send_all_loop_error send fuel i buf len w hlen hs]
      · rw [net_send_all_loop_next send fuel i buf len w hlen hs]
        obtain ⟨ih1, ih2⟩ := ih (i + 1) (buf + send i buf len) (size_sub len (send i buf len))
          (send i buf len) hs
        refine ⟨?_, ?_⟩
        · simp only [List.mem_cons, exists_eq_or_imp]
          rw [ih1]
          simp [hs]
        · intro c hc
          cases hcs : (net_send_all_loop send fuel (i + 1) (buf + send i buf len)
            (size_sub len (send i buf len)) (send i buf len)).calls with
          | nil => simp [hcs] at hc
          | cons d ds =>
            rw [hcs, List.dropLast_cons₂] at hc
            rcases List.mem_cons.mp hc with h | h
            · subst h; exact hs
            · exact ih2 c (by rw [hcs]; exact h)
    · have : len = 0 := by omega
      subst this
      simp [net_send_all_loop_done, hw]

/-- When every call returns -1 or accepts between 1 and the bytes it is handed,
`len` iterations are enough: the loop returns, makes at most `len` calls, and no
call is handed more than `len` bytes. -/
theorem net_send_all_loop_bounded (send : Nat → Int → Nat → Int) (fuel : Nat) :
    ∀ (i : Nat) (buf : Int) (len : Nat) (w : Int), len < SIZE_MODULUS → len ≤ fuel →
      ErrorOrAcceptsSome (net_send_all_loop send fuel i buf len w).calls →
      (net_send_all_loop send fuel i buf len w).ret.isSome = true ∧
      (net_send_all_loop send fuel i buf len w).calls.length ≤ len ∧
      (∀ c ∈ (net_send_all_loop send fuel i buf len w).calls, c.len ≤ len) := by
  induction fuel with
  | zero =>
    intro i buf len w _ hfuel _
    have : len = 0 := by omega
    subst this
    simp [net_send_all_loop_done]
  | succ fuel ih =>
    intro i buf len w hM hfuel hgood
    by_cases hlen : 0 < len
    · by_cases hs : send i buf len = -1
      · rw [net_send_all_loop_error send fuel i buf len w hlen hs]
        simp
        omega
      · rw [net_send_all_loop_next send fuel i buf len w hlen hs] at hgood ⊢
        have hc := hgood ⟨buf, len, send i buf len⟩ (List.mem_cons_self _ _)
        simp only at hc
        rcases hc with hc | ⟨hc1, hc2⟩
        · exact absurd hc hs
        · have hsub := size_sub_of_le len (send i buf len) (by omega) hc2 hM
          have hlt : size_sub len (send i buf len) < len := by omega
          have hrest : ErrorOrAcceptsSome
              (net_send_all_loop send fuel (i + 1) (buf + send i buf len)
                (size_sub len (send i buf len)) (send i buf len)).calls :=
            fun c hc => hgood c (List.mem_cons_of_mem _ hc)
          obtain ⟨h1, h2, h3⟩ := ih (i + 1) (buf + send i buf len)
            (size_sub len (send i buf len)) (send i buf len) (by omega) (by omega) hrest
          refine ⟨h1, ?_, ?_⟩
          · simp only [List.length_cons]
            omega
          · intro c hc
            rcases List.mem_cons.mp hc with h | h
            · subst h; exact le_refl _
            · exact le_trans (h3 c h) (le_of_lt hlt)
    · have : len = 0 := by omega
      subst this
      simp [net_send_all_loop_done]

/-- When every call accepts between 1 and the bytes it is handed, the accepted
chunks, in call order, make up the part of `data` from the starting offset `n`
onwards; each call is handed the offset that follows the chunks accepted before
it and the number of bytes from there to the end; the counts add up to `len`. -/
theorem net_send_all_loop_transfers {α : Type} (data : List α)
    (send : Nat → Int → Nat → Int) (fuel : Nat) :
    ∀ (i n len : Nat) (w : Int), len < SIZE_MODULUS → len ≤ fuel → n + len = data.length →
      AcceptsSome (net_send_all_loop send fuel i (n : Int) len w).calls →
      ((net_send_all_loop send fuel i (n : Int) len w).calls.map SendCall.w).sum = (len : Int) ∧
      ((net_send_all_loop send fuel i (n : Int) len w).calls.map (chunk data)).flatten
        = data.drop n ∧
      (∀ pre c post, (net_send_all_loop send fuel i (n : Int) len w).calls = pre ++ c :: post →
        (pre.map (chunk data)).flatten ++ data.drop c.buf.toNat = data.drop n ∧
        0 ≤ c.buf ∧ c.len = (data.drop c.buf.toNat).length) := by
  induction fuel with
  | zero =>
    intro i n len w _ hfuel hn _
    have : len = 0 := by omega
    subst this
    have hd : data.drop n = [] := List.drop_eq_nil_of_le (by omega)
    simp [net_send_all_loop_done, hd]
  | succ fuel ih =>
    intro i n len w hM hfuel hn hgood
    by_cases hlen : 0 < len
    · by_cases hs : send i (n : Int) len = -1
      · rw [net_send_all_loop_error send fuel i n len w hlen hs] at hgood
        have hc := hgood ⟨n, len, -1⟩ (List.mem_cons_self _ _)
        simp at hc
      · rw [net_send_all_loop_next send fuel i n len w hlen hs] at hgood ⊢
        obtain ⟨hc1, hc2⟩ := hgood ⟨n, len, send i n len⟩ (List.mem_cons_self _ _)
        simp only at hc1 hc2
        have hsub := size_sub_of_le len (send i n len) (by omega) hc2 hM
        obtain ⟨k, hk⟩ : ∃ k : Nat, send i (n : Int) len = (k : Int) :=
          ⟨(send i (n : Int) len).toNat, (Int.toNat_of_nonneg (by omega)).symm⟩
        rw [hk] at hsub hc1 hc2 hgood ⊢
        simp only [Int.toNat_ofNat] at hsub
        have hk1 : 1 ≤ k := by omega
        have hk2 : k ≤ len := by omega
        have hb : (n : Int) + (k : Int) = ((n + k : Nat) : Int) := by push_cast; rfl
        rw [hb, hsub] at hgood ⊢
        have hrest : AcceptsSome
            (net_send_all_loop send fuel (i + 1) ((n + k : Nat) : Int) (len - k) (k : Int)).calls :=
          fun c hc => hgood c (List.mem_cons_of_mem _ hc)
        obtain ⟨h1, h2, h3⟩ := ih (i + 1) (n + k) (len - k) (k : Int) (by omega) (by omega)
          (by omega) hrest
        have hsplit : (data.drop n).take k ++ data.drop (n + k) = data.drop n := by
          rw [← List.drop_drop]
          exact List.take_append_drop k (data.drop n)
        refine ⟨?_, ?_, ?_⟩
        · simp only [List.map_cons, List.sum_cons, h1]
          omega
        · simp only [List.map_cons, List.flatten_cons, h2, chunk, Int.toNat_ofNat]
          exact hsplit
        · intro pre c post hcalls
          cases pre with
          | nil =>
            simp only [List.nil_append, List.cons.injEq] at hcalls
            obtain ⟨hc, -⟩ := hcalls
            subst hc
            simp only [List.map_nil, List.flatten_nil, List.nil_append, Int.toNat_ofNat,
              List.length_drop]
            refine ⟨trivial, by omega, by omega⟩
          | cons p pre =>
            simp only [List.cons_append, List.cons.injEq] at hcalls
            obtain ⟨hp, hrest'⟩ := hcalls
            subst hp
            obtain ⟨g1, g2, g3⟩ := h3 pre c post hrest'
            refine ⟨?_, g2, g3⟩
            simp only [List.map_cons, List.flatten_cons, chunk, Int.toNat_ofNat,
              List.append_assoc]
            rw [g1]
            exact hsplit
    · have : len = 0 := by omega
      subst this
      have hd : data.drop n = [] := List.drop_eq_nil_of_le (by omega)
      simp [net_send_all_loop_done, hd]

/-- A run that has returned is not changed by a larger iteration bound. -/
theorem net_send_all_loop_fuel_mono (send : Nat → Int → Nat → Int) (fuel : Nat) :
    ∀ (i : Nat) (buf : Int) (len : Nat) (w : Int) (fuel1 : Nat), fuel ≤ fuel1 →
      (net_send_all_loop send fuel i buf len w).ret.isSome = true →
      net_send_all_loop send fuel1 i buf len w = net_send_all_loop send fuel i buf len w := by
  induction fuel with
  | zero =>
    intro i buf len w fuel1 _ hret
    by_cases hlen : 0 < len
    · simp [net_send_all_loop_out_of_fuel send i buf len w hlen] at hret
    · have : len = 0 := by omega
      subst this
      simp [net_send_all_loop_done]
  | succ fuel ih =>
    intro i buf len w fuel1 hle hret
    obtain ⟨f, rfl⟩ : ∃ f, fuel1 = f + 1 := ⟨fuel1 - 1, by omega⟩
    by_cases hlen : 0 < len
    · by_cases hs : send i buf len = -1
      · simp [net_send_all_loop_error send _ i buf len w hlen hs]
      · rw [net_send_all_loop_next send fuel i buf len w hlen hs] at hret ⊢
        rw [net_send_all_loop_next send f i buf len w hlen hs]
        rw [ih (i + 1) (buf + send i buf len) (size_sub len (send i buf len))
          (send i buf len) f (by omega) hret]
    · have : len = 0 := by omega
      subst this
      simp [net_send_all_loop_done]

theorem length_le_sum_of_accepts (l : List SendCall) (h : AcceptsSome l) :
    (l.length : Int) ≤ (l.map SendCall.w).sum := by
  induction l with
  | nil => simp
  | cons c cs ih =>
    have h1 := (h c (List.mem_cons_self _ _)).1
    have h2 := ih (fun d hd => h d (List.mem_cons_of_mem _ hd))
    simp only [List.length_cons, List.map_cons, List.sum_cons]
    push_cast
    omega

/-- C2 (the code departs from the claim): on the Windows backend `net_init`
returns `true` for every value of `WSAStartup`, also for the non-zero error
codes the claim says must give `false`, here 10091 (`WSASYSNOTREADY`); the
parts of the claim about success and about the POSIX backend hold. -/
theorem net_init_ignores_startup_error :
    net_init true 10091 = true ∧
    (∀ startup : Int, net_init true startup = true) ∧
    (∀ startup : Int, net_init false startup = true) := by
  refine ⟨by decide, ?_, ?_⟩
  · intro startup
    unfold net_init
    by_cases h : startup < 0 <;> simp [h]
  · intro startup
    simp [net_init]

/-! ## Properties of `net_select_interruptible` -/

/-- C3: for every outcome of the `select` call, that is a return value of -1, or
a positive count with at least one of the two watched descriptors in the ready
set, `net_select_interruptible` returns `false` if the call fails (returns -1)
or if the interrupt descriptor is in the returned ready set, whether or not the
data descriptor is ready too; it returns `true` exactly when the call succeeds,
the interrupt descriptor is not in the ready set and the data descriptor is;
and it returns in every case. -/
theorem net_select_interruptible_result
    (select : Int → fd_set → Int × fd_set) (fd fd_intr : Int)
    (hsel : (select_outcome select fd fd_intr).1 = -1 ∨
      (0 < (select_outcome select fd fd_intr).1 ∧
        (FD_ISSET fd (select_outcome select fd fd_intr).2 = true ∨
          FD_ISSET fd_intr (select_outcome select fd fd_intr).2 = true))) :
    ((select_outcome select fd fd_intr).1 = -1 ∨
        FD_ISSET fd_intr (select_outcome select fd fd_intr).2 = true →
      net_select_interruptible select fd fd_intr = SelectEnd.returned false) ∧
    (net_select_interruptible select fd fd_intr = SelectEnd.returned true ↔
      (select_outcome select fd fd_intr).1 ≠ -1 ∧
        FD_ISSET fd_intr (select_outcome select fd fd_intr).2 = false ∧
        FD_ISSET fd (select_outcome select fd fd_intr).2 = true) ∧
    (∃ b, net_select_interruptible select fd fd_intr = SelectEnd.returned b) := by
  unfold net_select_interruptible
  revert hsel
  generalize select_outcome select fd fd_intr = out
  obtain ⟨r, rfds⟩ := out
  simp only
  intro hsel
  by_cases h1 : r = -1
  · subst h1; simp
  · rcases hsel with hsel | ⟨hpos, hready⟩
    · exact absurd hsel h1
    · have h2 : r > 0 := hpos
      by_cases h3 : FD_ISSET fd_intr rfds = true
      · simp [h1, h2, h3]
      · have h4 : FD_ISSET fd rfds = true := by
          rcases hready with h | h
          · exact h
          · exact absurd h h3
        simp [h1, h2, h3, h4]

/-- C3 at concrete outcomes: both descriptors ready gives `false`, only the data
descriptor ready gives `true`, a failed call gives `false`. -/
theorem net_select_interruptible_result_witness :
    net_select_interruptible (fun _ rfds => (2, rfds)) 3 4 = SelectEnd.returned false ∧
    net_select_interruptible (fun _ _ => (1, fdsOf [3])) 3 4 = SelectEnd.returned true ∧
    net_select_interruptible (fun _ _ => (-1, fdsOf [])) 3 4 = SelectEnd.returned false :=
  ⟨(net_select_interruptible_result (fun _ rfds => (2, rfds)) 3 4
      (Or.inr ⟨by decide, Or.inl (by decide)⟩)).1 (Or.inr (by decide)),
    (net_select_interruptible_result (fun _ _ => (1, fdsOf [3])) 3 4
      (Or.inr ⟨by decide, Or.inl (by decide)⟩)).2.1.mpr ⟨by decide, by decide, by decide⟩,
    (net_select_interruptible_result (fun _ _ => (-1, fdsOf [])) 3 4
      (Or.inl (by decide))).1 (Or.inl (by decide))⟩

/-- C10: when `select` returns a value other than -1 that is positive and leaves
at least one of the two watched descriptors in the ready set, neither
`assert(r > 0)` nor `assert(FD_ISSET(fd, &rfds))` fails and the function returns;
`assert(r > 0)` fails exactly when the value is neither -1 nor positive, and
`assert(FD_ISSET(fd, &rfds))` exactly when the value is positive and neither
descriptor is in the ready set. -/
theorem net_select_interruptible_asserts
    (select : Int → fd_set → Int × fd_set) (fd fd_intr : Int) :
    ((select_outcome select fd fd_intr).1 ≠ -1 →
      0 < (select_outcome select fd fd_intr).1 →
      (FD_ISSET fd (select_outcome select fd fd_intr).2 = true ∨
        FD_ISSET fd_intr (select_outcome select fd fd_intr).2 = true) →
      ∃ b, net_select_interruptible select fd fd_intr = SelectEnd.returned b) ∧
    (net_select_interruptible select fd fd_intr = SelectEnd.assert_failed 1 ↔
      (select_outcome select fd fd_intr).1 ≠ -1 ∧
        (select_outcome select fd fd_intr).1 ≤ 0) ∧
    (net_select_interruptible select fd fd_intr = SelectEnd.assert_failed 2 ↔
      0 < (select_outcome select fd fd_intr).1 ∧
        FD_ISSET fd_intr (select_outcome select fd fd_intr).2 = false ∧
        FD_ISSET fd (select_outcome select fd fd_intr).2 = false) ∧
    (∀ n, net_select_interruptible select fd fd_intr = SelectEnd.assert_failed n →
      n = 1 ∨ n = 2) := by
  unfold net_select_interruptible
  generalize select_outcome select fd fd_intr = out
  obtain ⟨r, rfds⟩ := out
  simp only
  by_cases h1 : r = -1
  · subst h1; simp
  · by_cases h2 : r > 0
    · have h2' : 0 < r := h2
      have h2'' : ¬ r ≤ 0 := not_le.mpr h2
      by_cases h3 : FD_ISSET fd_intr rfds = true
      · simp [h1, h2', h2'', h3]
      · by_cases h4 : FD_ISSET fd rfds = true
        · simp [h1, h2', h2'', h3, h4]
        · simp [h1, h2', h2'', h3, h4]
    · have h2' : ¬ 0 < r := h2
      have h2'' : r ≤ 0 := not_lt.mp h2
      simp [h1, h2', h2'']

/-- C10 at concrete outcomes: with a positive count and the data descriptor
ready the function returns; with a positive count and an empty ready set the
second assertion fails. -/
theorem net_select_interruptible_asserts_witness :
    (∃ b, net_select_interruptible (fun _ _ => (1, fdsOf [3])) 3 4 = SelectEnd.returned b) ∧
    net_select_interruptible (fun _ _ => (1, fdsOf [])) 3 4 = SelectEnd.assert_failed 2 :=
  ⟨(net_select_interruptible_asserts (fun _ _ => (1, fdsOf [3])) 3 4).1
      (by decide) (by decide) (Or.inl (by decide)),
    (net_select_interruptible_asserts (fun _ _ => (1, fdsOf [])) 3 4).2.2.1.mpr
      ⟨by decide, by decide, by decide⟩⟩

/-! ## Properties of `net_connect` and `net_listen` -/

/-- C7: for every outcome of `socket`, `connect`, `bind` and `listen`,
`net_connect` and `net_listen` close a handle exactly when they allocated it and
return the invalid sentinel.  If `socket` fails nothing is closed and no
`connect`, `bind` or `listen` is attempted; if `connect`, `bind` or `listen`
fails the allocated socket is closed exactly once and the sentinel is returned
(after a `bind` failure `listen` is not called); on success the allocated socket
is returned and nothing is closed. -/
theorem net_connect_listen_close_discipline (sys : Sys) (addr port : Nat) (backlog : Int) :
    -- net_connect
    (closed (net_connect sys addr port).events =
      if sys.socket ≠ sys.INVALID_SOCKET ∧ (net_connect sys addr port).ret = sys.INVALID_SOCKET
      then [sys.socket] else []) ∧
    (sys.socket = sys.INVALID_SOCKET →
      (net_connect sys addr port).ret = sys.INVALID_SOCKET ∧
      closed (net_connect sys addr port).events = [] ∧
      attempted (net_connect sys addr port).events = false) ∧
    (sys.socket ≠ sys.INVALID_SOCKET →
      sys.connect sys.socket (sys.htonl addr) (sys.htons port) = SOCKET_ERROR →
      (net_connect sys addr port).ret = sys.INVALID_SOCKET ∧
      closed (net_connect sys addr port).events = [sys.socket]) ∧
    (sys.socket ≠ sys.INVALID_SOCKET →
      sys.connect sys.socket (sys.htonl addr) (sys.htons port) ≠ SOCKET_ERROR →
      (net_connect sys addr port).ret = sys.socket ∧
      closed (net_connect sys addr port).events = []) ∧
    -- net_listen
    (closed (net_listen sys addr port backlog).events =
      if sys.socket ≠ sys.INVALID_SOCKET ∧
        (net_listen sys addr port backlog).ret = sys.INVALID_SOCKET
      then [sys.socket] else []) ∧
    (sys.socket = sys.INVALID_SOCKET →
      (net_listen sys addr port backlog).ret = sys.INVALID_SOCKET ∧
      closed (net_listen sys addr port backlog).events = [] ∧
      attempted (net_listen sys addr port backlog).events = false) ∧
    (sys.socket ≠ sys.INVALID_SOCKET →
      sys.bind sys.socket (sys.htonl addr) (sys.htons port) = SOCKET_ERROR →
      (net_listen sys addr port backlog).ret = sys.INVALID_SOCKET ∧
      closed (net_listen sys addr port backlog).events = [sys.socket] ∧
      listened (net_listen sys addr port backlog).events = false) ∧
    (sys.socket ≠ sys.INVALID_SOCKET →
      sys.bind sys.socket (sys.htonl addr) (sys.htons port) ≠ SOCKET_ERROR →
      sys.listen sys.socket backlog = SOCKET_ERROR →
      (net_listen sys addr port backlog).ret = sys.INVALID_SOCKET ∧
      closed (net_listen sys addr port backlog).events = [sys.socket]) ∧
    (sys.socket ≠ sys.INVALID_SOCKET →
      sys.bind sys.socket (sys.htonl addr) (sys.htons port) ≠ SOCKET_ERROR →
      sys.listen sys.socket backlog ≠ SOCKET_ERROR →
      (net_listen sys addr port backlog).ret = sys.socket ∧
      closed (net_listen sys addr port backlog).events = []) := by
  by_cases h0 : sys.socket = sys.INVALID_SOCKET
  · simp [net_connect, net_listen, h0, closed, attempted]
  · have h0' : ¬ sys.INVALID_SOCKET = sys.socket := fun h => h0 h.symm
    by_cases ho : sys.setsockopt sys.socket = -1 <;>
    by_cases hc : sys.connect sys.socket (sys.htonl addr) (sys.htons port) = SOCKET_ERROR <;>
    by_cases hb : sys.bind sys.socket (sys.htonl addr) (sys.htons port) = SOCKET_ERROR <;>
    by_cases hl : sys.listen sys.socket backlog = SOCKET_ERROR <;>
    simp [net_connect, net_listen, net_close, reuse_diagnostic, h0, h0', ho, hc, hb, hl,
      closed, attempted, listened]

/-- C7 at concrete outcomes: a `bind` failure on socket 3 closes socket 3 once,
returns the sentinel and never calls `listen`. -/
theorem net_connect_listen_close_discipline_witness :
    (net_listen (sysOf 3 0 0 (-1) 0) 0 8080 1).ret = -1 ∧
    closed (net_listen (sysOf 3 0 0 (-1) 0) 0 8080 1).events = [3] ∧
    listened (net_listen (sysOf 3 0 0 (-1) 0) 0 8080 1).events = false :=
  (net_connect_listen_close_discipline (sysOf 3 0 0 (-1) 0) 0 8080 1).2.2.2.2.2.2.1
    (by decide) (by decide)

/-- C8: in `net_listen` the outcome of `setsockopt(SO_REUSEADDR)` is not
fatal.  For every outcome of `socket`, `bind` and `listen`, two runs that differ
only in what `setsockopt` returns give the same handle and perform the same
`socket`, `bind`, `listen` and `close` calls; their events differ at most by the
diagnostic line of the `setsockopt` step, which is written exactly when
`setsockopt` returns -1 on an allocated socket. -/
theorem net_listen_setsockopt_not_fatal (sys : Sys) (opt1 opt2 : Int → Int)
    (addr port : Nat) (backlog : Int) :
    (net_listen (with_setsockopt sys opt1) addr port backlog).ret =
      (net_listen (with_setsockopt sys opt2) addr port backlog).ret ∧
    socket_calls (net_listen (with_setsockopt sys opt1) addr port backlog).events =
      socket_calls (net_listen (with_setsockopt sys opt2) addr port backlog).events ∧
    without_reuse_diagnostic (net_listen (with_setsockopt sys opt1) addr port backlog).events =
      without_reuse_diagnostic (net_listen (with_setsockopt sys opt2) addr port backlog).events ∧
    ("setsockopt(SO_REUSEADDR)" ∈
        diagnostics (net_listen (with_setsockopt sys opt1) addr port backlog).events ↔
      sys.socket ≠ sys.INVALID_SOCKET ∧ opt1 sys.socket = -1) := by
  by_cases h0 : sys.socket = sys.INVALID_SOCKET
  · simp [net_listen, with_setsockopt, h0, diagnostics]
  · by_cases ho1 : opt1 sys.socket = -1 <;>
    by_cases ho2 : opt2 sys.socket = -1 <;>
    by_cases hb : sys.bind sys.socket (sys.htonl addr) (sys.htons port) = SOCKET_ERROR <;>
    by_cases hl : sys.listen sys.socket backlog = SOCKET_ERROR <;>
    simp [net_listen, net_close, with_setsockopt, reuse_diagnostic, h0, ho1, ho2, hb, hl,
      socket_calls, without_reuse_diagnostic, diagnostics]

/-- C8 at concrete outcomes: on socket 3 with `bind` and `listen` succeeding, the
run in which `setsockopt` fails returns the same handle as the run in which it
succeeds, the allocated socket. -/
theorem net_listen_setsockopt_not_fatal_witness :
    (net_listen (with_setsockopt (sysOf 3 0 0 0 0) (fun _ => -1)) 0 8080 1).ret =
      (net_listen (with_setsockopt (sysOf 3 0 0 0 0) (fun _ => 0)) 0 8080 1).ret ∧
    (net_listen (with_setsockopt (sysOf 3 0 0 0 0) (fun _ => -1)) 0 8080 1).ret = 3 :=
  ⟨(net_listen_setsockopt_not_fatal (sysOf 3 0 0 0 0) (fun _ => -1) (fun _ => 0) 0 8080 1).1,
    by decide⟩

/-! ## Properties of `net_send_all` -/

/-- C1: for every buffer `data` of length L (a `size_t` value) and every run of
`net_send_all` on it, allowed at least L iterations, in which each `send` call
accepts between 1 and the number of bytes it is handed, the function returns
without error, and the chunks accepted by the successive calls, concatenated in
call order, are `data` itself, so exactly L bytes are transmitted; each call is
handed the offset that follows the chunks accepted before it, that is the part
of the buffer not yet transmitted, together with the length of that part. -/
theorem net_send_all_transmits_buffer {α : Type} (data : List α)
    (send : Nat → Int → Nat → Int) (fuel : Nat)
    (hlen : data.length < SIZE_MODULUS) (hfuel : data.length ≤ fuel)
    (hsend : AcceptsSome (net_send_all send fuel data.length).calls) :
    (∃ w, (net_send_all send fuel data.length).ret = some w ∧ w ≠ -1) ∧
    ((net_send_all send fuel data.length).calls.map (chunk data)).flatten = data ∧
    ((net_send_all send fuel data.length).calls.map SendCall.w).sum = (data.length : Int) ∧
    (∀ pre c post, (net_send_all send fuel data.length).calls = pre ++ c :: post →
      (pre.map (chunk data)).flatten ++ data.drop c.buf.toNat = data ∧
      0 ≤ c.buf ∧ c.len = (data.drop c.buf.toNat).length) := by
  have hgood : ErrorOrAcceptsSome (net_send_all send fuel data.length).calls :=
    fun c hc => Or.inr (hsend c hc)
  unfold net_send_all at hsend hgood ⊢
  obtain ⟨hsome, -, -⟩ := net_send_all_loop_bounded send fuel 0 0 data.length 0 hlen hfuel hgood
  obtain ⟨herr, -⟩ := net_send_all_loop_error_iff send fuel 0 0 data.length 0 (by decide)
  have h0 : (0 : Int) = ((0 : Nat) : Int) := rfl
  rw [h0] at hsend ⊢
  obtain ⟨h1, h2, h3⟩ := net_send_all_loop_transfers data send fuel 0 0 data.length 0 hlen
    hfuel (by omega) hsend
  simp only [List.drop_zero] at h2 h3
  refine ⟨?_, h2, h1, h3⟩
  obtain ⟨w, hw⟩ := Option.isSome_iff_exists.mp hsome
  refine ⟨w, hw, ?_⟩
  rintro rfl
  obtain ⟨c, hc, hcw⟩ := herr.mp hw
  have := (hsend c hc).1
  omega

/-- C1 at a concrete input: five bytes over a transport that accepts at most two
bytes per call. -/
theorem net_send_all_transmits_buffer_witness :
    (net_send_all (sendAtMost 2) 5 5).calls = [⟨0, 5, 2⟩, ⟨2, 3, 2⟩, ⟨4, 1, 1⟩] ∧
    ((net_send_all (sendAtMost 2) 5 5).calls.map (chunk [10, 20, 30, 40, 50])).flatten
      = [10, 20, 30, 40, 50] :=
  ⟨by decide,
    (net_send_all_transmits_buffer [10, 20, 30, 40, 50] (sendAtMost 2) 5
      (by decide) (by decide) (by decide)).2.1⟩

/-- C5: `net_send_all` returns -1 if and only if one of its `send` calls returned
-1; no call before the last one returned -1, so the first such call is the last
call made (no retry), and the value returned is -1 whatever the earlier calls
accepted. -/
theorem net_send_all_error_iff (send : Nat → Int → Nat → Int) (fuel len : Nat) :
    ((net_send_all send fuel len).ret = some (-1) ↔
      ∃ c ∈ (net_send_all send fuel len).calls, c.w = -1) ∧
    (∀ c ∈ (net_send_all send fuel len).calls.dropLast, c.w ≠ -1) ∧
    (∀ pre c post, (net_send_all send fuel len).calls = pre ++ c :: post → c.w = -1 →
      post = [] ∧ (net_send_all send fuel len).ret = some (-1)) := by
  obtain ⟨h1, h2⟩ := net_send_all_loop_error_iff send fuel 0 0 len 0 (by decide)
  refine ⟨h1, h2, ?_⟩
  intro pre c post hcalls hc
  refine ⟨?_, h1.mpr ⟨c, by unfold net_send_all at hcalls; rw [hcalls]; simp, hc⟩⟩
  cases post with
  | nil => rfl
  | cons p ps =>
    exfalso
    unfold net_send_all at hcalls
    refine h2 c ?_ hc
    rw [hcalls, List.dropLast_append_cons, List.dropLast_cons₂]
    simp

/-- C5 at a concrete run: the second call fails after the first accepted two
bytes; the function returns -1 and makes no third call. -/
theorem net_send_all_error_iff_witness :
    (net_send_all (sendFailingAt 2 1) 10 5).calls = [⟨0, 5, 2⟩, ⟨2, 3, -1⟩] ∧
    (net_send_all (sendFailingAt 2 1) 10 5).ret = some (-1) :=
  ⟨by decide,
    (net_send_all_error_iff (sendFailingAt 2 1) 10 5).1.mpr ⟨⟨2, 3, -1⟩, by decide, rfl⟩⟩

/-- C6: when `net_send_all` returns, the value is the one returned by its last
`send` call, and it is 0 with no call made when the length is 0.  For a length
L > 0 (a `size_t` value) and a run, allowed at least L iterations, in which
every call accepts between 1 and the number of bytes it is handed, the function
returns the count of the last call; that value equals L if and only if the
transfer took exactly one `send` call, and is strictly less than L, the total
of the counts, otherwise. -/
theorem net_send_all_returns_last_count (send : Nat → Int → Nat → Int) (fuel len : Nat) :
    ((net_send_all send fuel len).ret = none ∨
      (net_send_all send fuel len).ret =
        some (((net_send_all send fuel len).calls.getLast?.map SendCall.w).getD 0)) ∧
    (len = 0 → net_send_all send fuel len = ⟨some 0, []⟩) ∧
    (0 < len → len < SIZE_MODULUS → len ≤ fuel →
      AcceptsSome (net_send_all send fuel len).calls →
      ∃ w, (net_send_all send fuel len).ret = some w ∧
        (net_send_all send fuel len).calls.getLast?.map SendCall.w = some w ∧
        ((net_send_all send fuel len).calls.map SendCall.w).sum = (len : Int) ∧
        (w = (len : Int) ↔ (net_send_all send fuel len).calls.length = 1) ∧
        ((net_send_all send fuel len).calls.length ≠ 1 → w < (len : Int))) := by
  refine ⟨net_send_all_loop_ret_last send fuel 0 0 len 0, ?_, ?_⟩
  · rintro rfl
    exact net_send_all_loop_done send fuel 0 0 0
  · intro hpos hM hfuel hsend
    have hlast := net_send_all_loop_ret_last send fuel 0 0 len 0
    have hgood : ErrorOrAcceptsSome (net_send_all send fuel len).calls :=
      fun c hc => Or.inr (hsend c hc)
    unfold net_send_all at hsend hgood ⊢
    obtain ⟨hsome, -, -⟩ := net_send_all_loop_bounded send fuel 0 0 len 0 hM hfuel hgood
    have h0 : (0 : Int) = ((0 : Nat) : Int) := rfl
    have hsum : ((net_send_all_loop send fuel 0 0 len 0).calls.map SendCall.w).sum
        = (len : Int) := by
      have hsend1 := hsend
      rw [h0] at hsend1 ⊢
      exact (net_send_all_loop_transfers (List.replicate len ()) send fuel 0 0 len 0 hM hfuel
        (by simp) hsend1).1
    generalize (net_send_all_loop send fuel 0 0 len 0) = r at hsend hsome hsum hlast ⊢
    rcases hlast with hnone | hret
    · rw [hnone] at hsome; simp at hsome
    · rcases List.eq_nil_or_concat r.calls with hnil | ⟨init, c, hcalls⟩
      · rw [hnil] at hsum
        simp at hsum
        omega
      · rw [hcalls] at hsum hsend hret ⊢
        have hgl : (init ++ [c]).getLast? = some c := by simp
        simp only [List.concat_eq_append, hgl, Option.map_some', Option.getD_some] at hret ⊢
        have hinit : AcceptsSome init := fun d hd => hsend d (by simp [hd])
        have hlen := length_le_sum_of_accepts init hinit
        simp only [List.concat_eq_append, List.map_append, List.sum_append, List.map_cons,
          List.map_nil, List.sum_cons, List.sum_nil, add_zero] at hsum
        refine ⟨c.w, hret, rfl, ?_, ?_, ?_⟩
        · simp only [List.map_append, List.sum_append, List.map_cons, List.map_nil,
            List.sum_cons, List.sum_nil, add_zero]
          exact hsum
        · simp only [List.length_append, List.length_singleton]
          constructor
          · intro h; omega
          · intro h
            have : init = [] := List.length_eq_zero.mp (by omega)
            subst this
            simpa using hsum
        · simp only [List.length_append, List.length_singleton]
          intro h
          omega

/-- C6 at concrete runs: five bytes in three calls return 1, the count of the
last call; five bytes in one call return 5. -/
theorem net_send_all_returns_last_count_witness :
    (net_send_all (sendAtMost 2) 5 5).ret = some 1 ∧
    (net_send_all (sendAtMost 5) 5 5).ret = some 5 ∧
    (∃ w, (net_send_all (sendAtMost 2) 5 5).ret = some w ∧
      (net_send_all (sendAtMost 2) 5 5).calls.getLast?.map SendCall.w = some w ∧
      ((net_send_all (sendAtMost 2) 5 5).calls.map SendCall.w).sum = ((5 : Nat) : Int) ∧
      (w = ((5 : Nat) : Int) ↔ (net_send_all (sendAtMost 2) 5 5).calls.length = 1) ∧
      ((net_send_all (sendAtMost 2) 5 5).calls.length ≠ 1 → w < ((5 : Nat) : Int))) :=
  ⟨by decide, by decide,
    (net_send_all_returns_last_count (sendAtMost 2) 5 5).2.2
      (by decide) (by decide) (by decide) (by decide)⟩

/-- C9: for every length L (a `size_t` value), in a run allowed at least L
iterations in which every `send` call returns -1 or a count between 1 and the
number of bytes it is handed, `net_send_all` returns after at most L `send`
calls (none when L is 0); allowing more iterations changes nothing; and `len`
never wraps: at every call that does not fail the count is at most `len`, and
`len -= w` leaves the exact difference. -/
theorem net_send_all_bounded (send : Nat → Int → Nat → Int) (fuel len : Nat)
    (hM : len < SIZE_MODULUS) (hfuel : len ≤ fuel)
    (hsend : ErrorOrAcceptsSome (net_send_all send fuel len).calls) :
    (net_send_all send fuel len).ret.isSome = true ∧
    (net_send_all send fuel len).calls.length ≤ len ∧
    (len = 0 → (net_send_all send fuel len).calls = []) ∧
    (∀ fuel1, fuel ≤ fuel1 → net_send_all send fuel1 len = net_send_all send fuel len) ∧
    (∀ c ∈ (net_send_all send fuel len).calls, c.w ≠ -1 →
      (0 : Int) ≤ (c.len : Int) - c.w ∧ ((size_sub c.len c.w : Nat) : Int) = (c.len : Int) - c.w) := by
  unfold net_send_all at hsend ⊢
  obtain ⟨h1, h2, h3⟩ := net_send_all_loop_bounded send fuel 0 0 len 0 hM hfuel hsend
  refine ⟨h1, h2, ?_, ?_, ?_⟩
  · intro h
    exact List.length_eq_zero.mp (by omega)
  · intro fuel1 hle
    exact net_send_all_loop_fuel_mono send fuel 0 0 len 0 fuel1 hle h1
  · intro c hc hne
    have hcl := h3 c hc
    rcases hsend c hc with h | ⟨ha, hb⟩
    · exact absurd h hne
    · have hsub := size_sub_of_le c.len c.w (by omega) hb (by omega)
      rw [hsub]
      omega

/-- C9 at a concrete run: five bytes, the second call fails; the run ends after
two calls. -/
theorem net_send_all_bounded_witness :
    (net_send_all (sendFailingAt 2 1) 5 5).ret.isSome = true ∧
    (net_send_all (sendFailingAt 2 1) 5 5).calls.length ≤ 5 :=
  ⟨(net_send_all_bounded (sendFailingAt 2 1) 5 5 (by decide) (by decide) (by decide)).1,
    (net_send_all_bounded (sendFailingAt 2 1) 5 5 (by decide) (by decide) (by decide)).2.1⟩

end Net
